import Mathlib

/-!
Shallow embedding of the KubeVela Application reconcile controller
(src/pkg/apiserver/rest/apis/cmbv1/types.go, `package application`) and of
the storage-trait CRUD usecase (src/unnamed/part_000 .. part_002), together
with proofs about the frozen claims.

Go errors are modelled as `Option String` (`none` = nil error); external
calls (client Get/Update/Patch, resource-tracker listing, garbage
collection) are modelled by passing their outcomes in explicitly as
environment records; global mutable flags (`EnableReconcileLoopReduction`,
`EnableResourceTrackerDeleteOnlyTrigger`, `wfContext.EnableInMemoryContext`)
become explicit boolean parameters; durations are natural numbers of
milliseconds.
-/

namespace KubeVela

/-- A Go `error` value: `none` is a nil error, `some s` an error with message `s`. -/
abbrev GoErr := Option String

/-- `errors.Wrap(err, msg)`: nil stays nil, otherwise the message is prefixed. -/
def wrapErr (e : GoErr) (msg : String) : GoErr :=
  e.map (fun s => msg ++ ": " ++ s)

/-- `errors.WithMessage(err, msg)` behaves like `wrapErr` for our purposes. -/
def withMessageErr (e : GoErr) (msg : String) : GoErr :=
  e.map (fun s => msg ++ ": " ++ s)

/-- Association-list lookup, modelling a Go `map[string]string` read with the
`v, ok := m[k]` form. -/
def lookupStr (m : List (String × String)) (k : String) : Option String :=
  (m.find? (fun p => p.1 == k)).map (·.2)

/-- Go `m[k]` indexing on a `map[string]string`: a missing key yields the zero
value `""`. -/
def goIndex (m : List (String × String)) (k : String) : String :=
  (lookupStr m k).getD ""

/-- A condition in the application status (`condition.Condition`). -/
structure Condition where
  ctype : String
  status : Bool
  reason : String
  message : String
deriving DecidableEq, Repr

/-- Workflow sub-status (`common.WorkflowStatus`): the fields the event filter
and the reconcile loop touch. -/
structure WorkflowStatus where
  steps : List String
  contextBackend : Option String
  message : String
  suspend : Bool
  terminated : Bool
  finished : Bool
deriving DecidableEq, Repr

/-- Per-component service status (`common.ApplicationComponentStatus`):
name, component health, and per-trait health records. -/
structure ServiceStatus where
  name : String
  healthy : Bool
  traits : List (String × Bool)
deriving DecidableEq, Repr

/-- Application status sub-structure (`common.AppStatus`): the fields the
controller and the event filter read or write. -/
structure AppStatus where
  phase : String
  observedGeneration : Int
  conditions : List Condition
  appliedResources : List String
  services : List ServiceStatus
  workflow : Option WorkflowStatus
deriving DecidableEq, Repr

/-- The Application object (`v1beta1.Application`): identity, generation,
deletion marker, finalizers, annotations, managed fields, an opaque stand-in
for the spec document, and the status. `annotations = none` models a nil Go
map (the code distinguishes nil from empty). -/
structure Application where
  name : String
  nspace : String
  generation : Int
  resourceVersion : String
  deletionTimestamp : Option Int
  finalizers : List String
  annotations : Option (List (String × String))
  managedFields : List String
  spec : String
  status : AppStatus
deriving DecidableEq, Repr

/-- `resourceTrackerFinalizer = "app.oam.dev/resource-tracker-finalizer"`. -/
def resourceTrackerFinalizer : String := "app.oam.dev/resource-tracker-finalizer"

/-- `meta.FinalizerExists(app, f)`. -/
def finalizerExists (app : Application) (f : String) : Bool :=
  app.finalizers.contains f

/-- `meta.AddFinalizer(app, f)`: appends the finalizer when absent. -/
def addFinalizer (app : Application) (f : String) : Application :=
  if app.finalizers.contains f then app
  else { app with finalizers := app.finalizers ++ [f] }

/-- `meta.RemoveFinalizer(app, f)`: removes every occurrence. -/
def removeFinalizer (app : Application) (f : String) : Application :=
  { app with finalizers := app.finalizers.filter (fun x => x ≠ f) }

/-- `app.Status.SetConditions(c)`: replace the condition of the same type, or
append it. -/
def setConditions (app : Application) (c : Condition) : Application :=
  { app with status := { app.status with
      conditions := (app.status.conditions.filter (fun x => x.ctype ≠ c.ctype)) ++ [c] } }

/-! ## Event filter (`SetupWithManager`, `UpdateFunc`)

The update event filter is a pure predicate over the (old, new) pair. The
code first passes fully deep-equal pairs (treated as a resync), then copies
`ManagedFields` from old to new, passes generation changes, then — when both
objects carry a workflow status — copies the workflow step list, context
backend, message, the applied-resource and service lists and the resource
version from old to new, and finally suppresses iff the two objects have
become deep-equal. -/

/-- The workflow-field normalization performed inside the update filter on the
managed-fields-adjusted new object. -/
def normalizeWorkflowFields (old new1 : Application) : Application :=
  match old.status.workflow, new1.status.workflow with
  | some ow, some nw =>
    { new1 with
      status := { new1.status with
        workflow := some { nw with
          steps := ow.steps
          contextBackend := ow.contextBackend
          message := ow.message }
        appliedResources := old.status.appliedResources
        services := old.status.services }
      resourceVersion := old.resourceVersion }
  | _, _ => new1

/-- The full normalization the filter applies to `new` before the final
deep-equality test: managed-fields copy, then workflow-field normalization. -/
def normalizeUpd (old new : Application) : Application :=
  normalizeWorkflowFields old { new with managedFields := old.managedFields }

/-- The `UpdateFunc` event filter restricted to the case where both objects
are Applications: `true` means the event passes (a reconcile is enqueued),
`false` means it is suppressed. -/
def updateFilter (old new : Application) : Bool :=
  if old = new then true
  else
    let new1 := { new with managedFields := old.managedFields }
    if old.generation ≠ new1.generation then true
    else !(decide (old = normalizeWorkflowFields old new1))

/-- Second definition, following the specification text for claim C3: the
volatile fields (field-ownership metadata, workflow step list, context
backend, workflow message, applied-resource list, service list, resource
version) are normalized unconditionally, and the claim calls a pair
"deep-equal after normalizing volatile fields" when old equals the
normalized new. -/
def specNormalizeVolatile (old new : Application) : Application :=
  { new with
    managedFields := old.managedFields
    resourceVersion := old.resourceVersion
    status := { new.status with
      appliedResources := old.status.appliedResources
      services := old.status.services
      workflow := match old.status.workflow, new.status.workflow with
        | some ow, some nw => some { nw with
            steps := ow.steps
            contextBackend := ow.contextBackend
            message := ow.message }
        | _, nw => nw } }

/-- "Deep-equal after normalizing volatile fields", as the spec words it. -/
def specVolatileEq (old new : Application) : Bool :=
  decide (old = specNormalizeVolatile old new)

/-! ## Requeue bookkeeping (`reconcileResult`, `ctrl.Result`)

Durations are natural numbers of milliseconds; `time.Duration.Seconds() != 0`
holds exactly when the duration is nonzero. -/

/-- `ctrl.Result`: the code only ever sets `RequeueAfter` (0 = not set). -/
structure CtrlResult where
  requeueAfter : Nat
deriving DecidableEq, Repr

/-- `baseGCBackoffWaitTime = 3000 * time.Millisecond`. -/
def baseGCBackoffWaitTime : Nat := 3000

/-- Modelled from the spec: `common2.ApplicationReSyncPeriod`, the default
re-sync interval, is defined outside the provided sources; the spec calls it
"the default re-sync interval". Its value (5 minutes upstream) only matters
through being a fixed nonzero constant. -/
def applicationReSyncPeriod : Nat := 300000

/-- `reconcileResult`: a pending requeue duration plus an error. -/
structure reconcileResult where
  duration : Nat
  err : GoErr
deriving DecidableEq, Repr

/-- `r.result(err)`. -/
def mkResult (e : GoErr) : reconcileResult := { duration := 0, err := e }

/-- `(*reconcileResult).requeue(d)`. -/
def reconcileResult.requeue (r : reconcileResult) (d : Nat) : reconcileResult :=
  { r with duration := d }

/-- `(*reconcileResult).ret()`: a nonzero duration is returned as-is together
with the error; otherwise a bare error, or the default re-sync requeue. -/
def reconcileResult.ret (r : reconcileResult) : CtrlResult × GoErr :=
  if r.duration ≠ 0 then (⟨r.duration⟩, r.err)
  else match r.err with
    | some e => (⟨0⟩, some e)
    | none => (⟨applicationReSyncPeriod⟩, none)

/-! ## Status writes (`patchStatus`, `updateStatus`, `endWithNegativeCondition`)

`workflow.StepStatusCache.Store(key, -1)` is modelled by the `cacheStore`
field of the output: `some (key, -1)` when the store happened, `none`
otherwise. -/

/-- `updateObservedGeneration(app)`. -/
def updateObservedGeneration (app : Application) : Application :=
  if app.status.observedGeneration ≠ app.generation then
    { app with status := { app.status with observedGeneration := app.generation } }
  else app

/-- The key used for the workflow step-status cache:
`fmt.Sprintf("%s-%s", app.Name, app.Namespace)`. -/
def stepStatusKey (app : Application) : String := app.name ++ "-" ++ app.nspace

/-- Output of a status write: the mutated in-memory object, the returned
error, and the step-status-cache store effect. -/
structure StatusWriteOut where
  app : Application
  err : GoErr
  cacheStore : Option (String × Int)
deriving Repr

/-- `(*Reconciler).patchStatus`: sets the phase, applies
`updateObservedGeneration`, issues the status patch (its outcome is the
`patchErr` input), and on failure stores -1 in the step-status cache before
propagating the error. -/
def patchStatus (patchErr : GoErr) (app : Application) (phase : String) : StatusWriteOut :=
  let app1 := { app with status := { app.status with phase := phase } }
  let app2 := updateObservedGeneration app1
  match patchErr with
  | some e => { app := app2, err := some e, cacheStore := some (stepStatusKey app2, -1) }
  | none => { app := app2, err := none, cacheStore := none }

/-- `(*Reconciler).updateStatus`: sets the phase and observed generation; when
`disableStatusUpdate` is false it returns the status-update outcome directly
(no cache store on failure); otherwise it converts to unstructured (outcome
`unstructuredErr`) and updates, storing -1 in the step-status cache when that
update fails. -/
def updateStatus (disableStatusUpdate : Bool) (updateErr unstructuredErr : GoErr)
    (app : Application) (phase : String) : StatusWriteOut :=
  let app1 := { app with status := { app.status with phase := phase } }
  let app2 := updateObservedGeneration app1
  if !disableStatusUpdate then
    { app := app2, err := updateErr, cacheStore := none }
  else
    match unstructuredErr with
    | some e => { app := app2, err := some e, cacheStore := none }
    | none =>
      match updateErr with
      | some e => { app := app2, err := some e, cacheStore := some (stepStatusKey app2, -1) }
      | none => { app := app2, err := none, cacheStore := none }

/-- Output of `endWithNegativeCondition` and of `gcResourceTrackers`: the
mutated object, the returned `(ctrl.Result, error)` pair, and the cache-store
effect. -/
structure ReconcileOut where
  app : Application
  result : CtrlResult
  err : GoErr
  cacheStore : Option (String × Int)
deriving Repr

/-- The error message `fmt.Errorf("object level reconcile error, type: %q, msg: %q", ...)`. -/
def objectLevelErrMsg (c : Condition) : String :=
  "object level reconcile error, type: \"" ++ c.ctype ++ "\", msg: \"" ++ c.message ++ "\""

/-- `(*Reconciler).endWithNegativeCondition`: sets the condition, patches the
status, and always ends with a non-nil error — either the wrapped patch
failure or the object-level reconcile error. -/
def endWithNegativeCondition (patchErr : GoErr) (app : Application)
    (c : Condition) (phase : String) : ReconcileOut :=
  let app1 := setConditions app c
  let po := patchStatus patchErr app1 phase
  match po.err with
  | some e =>
    let (res, e2) := (mkResult (withMessageErr (some e) "cannot update application status")).ret
    { app := po.app, result := res, err := e2, cacheStore := po.cacheStore }
  | none =>
    let (res, e2) := (mkResult (some (objectLevelErrMsg c))).ret
    { app := po.app, result := res, err := e2, cacheStore := po.cacheStore }

/-! ## Garbage collection of resource trackers (`gcResourceTrackers`) -/

/-- Modelled from the spec: the application phase constants
(`common.ApplicationPhase`) are defined outside the provided sources; the
spec names the phases Starting, Rendering, PolicyGenerating, RunningWorkflow,
WorkflowSuspending, WorkflowTerminated, WorkflowFinished, Running, Unhealthy
and Deleting. They are modelled as strings. -/
def applicationRendering : String := "rendering"

def applicationRunningWorkflow : String := "runningWorkflow"

def applicationDeleting : String := "deleting"

def applicationRunning : String := "running"

/-- Modelled from the spec: `condition.ReconcileError(err)` (defined outside
the provided sources) builds the negative reconcile-error condition carrying
the error message. -/
def reconcileErrorCondition (e : String) : Condition :=
  { ctype := "Synced", status := false, reason := "ReconcileError", message := e }

/-- Modelled from the spec: `condition.Deleting()` (defined outside the
provided sources) builds the deleting condition; `gcResourceTrackers` then
overwrites its message with the waiting-resources text. -/
def deletingCondition : Condition :=
  { ctype := "Deleting", status := false, reason := "Deleting", message := "" }

/-- The message set on the deleting condition when resources are still being
deleted: `fmt.Sprintf("Waiting for %s to delete. (At least %d resources are
deleting.)", waiting[0].DisplayName(), len(waiting))`. -/
def waitingMessage (waiting : List String) : String :=
  "Waiting for " ++ waiting.headI ++ " to delete. (At least " ++
    toString waiting.length ++ " resources are deleting.)"

/-- Outcomes of the external calls made during one `gcResourceTrackers`
invocation: the `resourceKeeper.GarbageCollect` result (`(finished, waiting)`
or an error), and the outcomes of the status patch/update performed
afterwards. -/
structure GCEnv where
  gcCall : Except String (Bool × List String)
  patchErr : GoErr
  disableStatusUpdate : Bool
  updateErr : GoErr
  unstructuredErr : GoErr

/-- `(*Reconciler).gcResourceTrackers`: runs garbage collection (with the
mark-stage, component-revision and legacy options disabled unless
`gcOutdated`; only the call outcome `env.gcCall` is visible here), ends with
a negative condition on GC error, requeues after the fixed GC backoff while
deletions are in flight, and otherwise writes status — via `updateStatus`
(advancing to RunningWorkflow) when the phase is Rendering, via `patchStatus`
otherwise. -/
def gcResourceTrackers (env : GCEnv) (app : Application) (phase : String)
    (_gcOutdated : Bool) : ReconcileOut :=
  match env.gcCall with
  | .error e => endWithNegativeCondition env.patchErr app (reconcileErrorCondition e) phase
  | .ok (finished, waiting) =>
    if !finished then
      let cond :=
        if waiting.length > 0 then { deletingCondition with message := waitingMessage waiting }
        else deletingCondition
      let app1 := setConditions app cond
      let po := patchStatus env.patchErr app1 phase
      let (res, e2) := ((mkResult po.err).requeue baseGCBackoffWaitTime).ret
      { app := po.app, result := res, err := e2, cacheStore := po.cacheStore }
    else if phase = applicationRendering then
      let uo := updateStatus env.disableStatusUpdate env.updateErr env.unstructuredErr
        app applicationRunningWorkflow
      let (res, e2) := (mkResult uo.err).ret
      { app := uo.app, result := res, err := e2, cacheStore := uo.cacheStore }
    else
      let po := patchStatus env.patchErr app phase
      let (res, e2) := (mkResult po.err).ret
      { app := po.app, result := res, err := e2, cacheStore := po.cacheStore }

/-! ## Finalizer protocol (`handleFinalizers`) -/

/-- The four resource-tracker kinds returned by
`resourcetracker.ListApplicationResourceTrackers`: root tracker, current
tracker, historical trackers, component-revision tracker (each identified by
name). -/
structure TrackerList where
  rootRT : Option String
  currentRT : Option String
  historyRTs : List String
  cvRT : Option String
deriving DecidableEq, Repr

/-- The emptiness test performed by `handleFinalizers`:
`rootRT == nil && currentRT == nil && len(historyRTs) == 0 && cvRT == nil`. -/
def TrackerList.isEmpty (t : TrackerList) : Bool :=
  t.rootRT = none && t.currentRT = none && t.historyRTs = [] && t.cvRT = none

/-- Garbage collection can only delete trackers, never create them: `after`
is obtained from `before` by dropping some trackers. -/
def TrackerList.shrinks (after before : TrackerList) : Prop :=
  (after.rootRT = before.rootRT ∨ after.rootRT = none) ∧
  (after.currentRT = before.currentRT ∨ after.currentRT = none) ∧
  after.historyRTs.Sublist before.historyRTs ∧
  (after.cvRT = before.cvRT ∨ after.cvRT = none)

/-- `errUpdateApplicationFinalizer = "cannot update application finalizer"`. -/
def errUpdateApplicationFinalizer : String := "cannot update application finalizer"

/-- Outcomes of the external calls made during one `handleFinalizers`
invocation (tracker listing, the GC sub-environment, the `Client.Update`
persisting finalizer changes) plus the global flags
`EnableReconcileLoopReduction` and `wfContext.EnableInMemoryContext`. -/
structure HFEnv where
  listResult : Except String TrackerList
  gcEnv : GCEnv
  updateErr : GoErr
  loopReduction : Bool
  inMemoryContext : Bool

/-- Output of `handleFinalizers`: the `(endReconcile, ctrl.Result, error)`
triple, the mutated object, and effect flags recording whether the finalizer
was added/removed (i.e. the corresponding `Client.Update` was issued) and
whether the in-memory workflow context was cleared. -/
structure HFOut where
  app : Application
  endReconcile : Bool
  result : CtrlResult
  err : GoErr
  addedFinalizer : Bool
  removedFinalizer : Bool
  clearedMemCtx : Bool
  cacheStore : Option (String × Int)
deriving Repr

/-- `(*Reconciler).handleFinalizers`. Not deleting and no finalizer: add the
finalizer, persist, end the pass (unless loop reduction is enabled). Deleting
with the finalizer present: list the four trackers, run full GC
(`gcOutdated = true`, phase Deleting); if the listing was entirely empty,
remove the finalizer and persist; otherwise keep the finalizer, clear the
in-memory workflow context when that store is enabled, and end the pass with
the GC result. All other state pairs are a no-op. -/
def handleFinalizers (env : HFEnv) (app : Application) : HFOut :=
  if app.deletionTimestamp = none then
    if !(finalizerExists app resourceTrackerFinalizer) then
      let app1 := addFinalizer app resourceTrackerFinalizer
      let endRec := !env.loopReduction
      let (res, e2) := (mkResult (wrapErr env.updateErr errUpdateApplicationFinalizer)).ret
      { app := app1, endReconcile := endRec, result := res, err := e2,
        addedFinalizer := true, removedFinalizer := false,
        clearedMemCtx := false, cacheStore := none }
    else
      let (res, e2) := (mkResult none).ret
      { app := app, endReconcile := false, result := res, err := e2,
        addedFinalizer := false, removedFinalizer := false,
        clearedMemCtx := false, cacheStore := none }
  else
    if finalizerExists app resourceTrackerFinalizer then
      match env.listResult with
      | .error e =>
        let (res, e2) := (mkResult (some e)).ret
        { app := app, endReconcile := true, result := res, err := e2,
          addedFinalizer := false, removedFinalizer := false,
          clearedMemCtx := false, cacheStore := none }
      | .ok t =>
        let g := gcResourceTrackers env.gcEnv app applicationDeleting true
        match g.err with
        | some e =>
          { app := g.app, endReconcile := true, result := g.result, err := some e,
            addedFinalizer := false, removedFinalizer := false,
            clearedMemCtx := false, cacheStore := g.cacheStore }
        | none =>
          if t.rootRT = none ∧ t.currentRT = none ∧ t.historyRTs = [] ∧ t.cvRT = none then
            let app1 := removeFinalizer g.app resourceTrackerFinalizer
            let (res, e2) := (mkResult (wrapErr env.updateErr errUpdateApplicationFinalizer)).ret
            { app := app1, endReconcile := true, result := res, err := e2,
              addedFinalizer := false, removedFinalizer := true,
              clearedMemCtx := false, cacheStore := g.cacheStore }
          else
            { app := g.app, endReconcile := true, result := g.result, err := none,
              addedFinalizer := false, removedFinalizer := false,
              clearedMemCtx := env.inMemoryContext, cacheStore := g.cacheStore }
    else
      let (res, e2) := (mkResult none).ret
      { app := app, endReconcile := false, result := res, err := e2,
        addedFinalizer := false, removedFinalizer := false,
        clearedMemCtx := false, cacheStore := none }

/-! ## Controller-version guard (`matchControllerRequirement`, start of `Reconcile`) -/

/-- Reconciler options (`options`): the fields read by the guards and status
writes modelled here. -/
structure ROptions where
  disableStatusUpdate : Bool
  ignoreAppNoCtrlReq : Bool
  controllerVersion : String
deriving Repr

/-- Modelled from the spec: `oam.AnnotationControllerRequirement` (defined
outside the provided sources) is the annotation key for the required
controller-version tag. Only its identity matters. -/
def annotationControllerRequirement : String := "app.oam.dev/controller-version-require"

/-- `(*Reconciler).matchControllerRequirement`: when the annotation is
present, match iff it equals this controller's version; otherwise match
unless the reconciler is configured to ignore applications without a
controller requirement. -/
def matchControllerRequirement (r : ROptions) (app : Application) : Bool :=
  match app.annotations with
  | some anns =>
    match lookupStr anns annotationControllerRequirement with
    | some requireVersion => requireVersion == r.controllerVersion
    | none => if r.ignoreAppNoCtrlReq then false else true
  | none => if r.ignoreAppNoCtrlReq then false else true

/-- The fetch outcome at the start of `Reconcile`: the object, or an error
tagged with whether it is a not-found error. -/
structure FetchErr where
  notFound : Bool
  msg : String
deriving Repr

/-- `client.IgnoreNotFound`. -/
def ignoreNotFound (e : FetchErr) : GoErr :=
  if e.notFound then none else some e.msg

/-- Outcome of the opening steps of `Reconcile`: the `(ctrl.Result, error)`
pair when the pass returns early, a count of status writes performed so far,
and whether the pass proceeded past the controller-version guard. -/
structure EarlyOut where
  result : CtrlResult
  err : GoErr
  statusWrites : Nat
  proceeded : Bool
deriving Repr

/-- The opening steps of `Reconcile`: fetch the object (absent object —
not-found — is success), then check `matchControllerRequirement`; on a
mismatch return `ctrl.Result{}, nil` immediately, with no status write. -/
def reconcileEarlyPhase (r : ROptions) (fetch : Except FetchErr Application) : EarlyOut :=
  match fetch with
  | .error e =>
    let (res, e2) := (mkResult (ignoreNotFound e)).ret
    { result := res, err := e2, statusWrites := 0, proceeded := false }
  | .ok app =>
    if !(matchControllerRequirement r app) then
      { result := ⟨0⟩, err := none, statusWrites := 0, proceeded := false }
    else
      { result := ⟨0⟩, err := none, statusWrites := 0, proceeded := true }

/-! ## The `WorkflowStateExecuting` branch of `Reconcile` -/

/-- The `case common.WorkflowStateExecuting` branch: run the lightweight GC
(phase RunningWorkflow, non-outdated), then
`r.result(err).requeue(wf.GetBackoffWaitTime()).ret()` with the
driver-supplied backoff duration. -/
def workflowExecutingCase (env : GCEnv) (app : Application) (backoff : Nat) :
    CtrlResult × GoErr :=
  let g := gcResourceTrackers env app applicationRunningWorkflow false
  ((mkResult g.err).requeue backoff).ret

/-! ## ResourceTracker event mapping (`handleResourceTracker`) -/

/-- The ResourceTracker fields read by `handleResourceTracker`: labels
(`none` models a nil map) and the deletion timestamp. -/
structure ResourceTracker where
  labels : Option (List (String × String))
  deletionTimestamp : Option Int
deriving DecidableEq, Repr

/-- `reconcile.Request`. -/
structure ReconcileRequest where
  name : String
  nspace : String
deriving DecidableEq, Repr

/-- Modelled from the spec: `oam.LabelAppName` and `oam.LabelAppNamespace`
(defined outside the provided sources) are the app-name and app-namespace
label keys on resource trackers. Only their identities matter. -/
def labelAppName : String := "app.oam.dev/name"

def labelAppNamespace : String := "app.oam.dev/namespace"

/-- `handleResourceTracker`, given the global flag
`EnableResourceTrackerDeleteOnlyTrigger`: returns the reconcile request added
to the work queue, or `none` when the notification is dropped. With the
delete-only optimization, trackers without a deletion timestamp are dropped;
then the request is enqueued only when both the app-name and app-namespace
labels are non-empty. -/
def handleResourceTracker (deleteOnlyTrigger : Bool) (rt : ResourceTracker) :
    Option ReconcileRequest :=
  if deleteOnlyTrigger && rt.deletionTimestamp = none then none
  else
    match rt.labels with
    | none => none
    | some ls =>
      let reqName := goIndex ls labelAppName
      let reqNs := goIndex ls labelAppNamespace
      if reqNs ≠ "" && reqName ≠ "" then some ⟨reqName, reqNs⟩ else none

/-! ## Storage-trait CRUD (src/unnamed/part_000 .. part_002)

The trait property document (`model.JSONStruct`, a `map[string]interface{}`)
is modelled by an association list of JSON-like values. Go type assertions
`x.(T)` in their single-value form panic on mismatch; every such panic is
caught by the deferred `recover` in the usecase functions, which then return
zero values — modelled by explicit `panic` outcomes. -/

/-- A JSON-like `interface{}` value: a string, an object, an array, or some
other scalar (number, bool, nil) whose content the code never inspects. -/
inductive JVal where
  | str : String → JVal
  | obj : List (String × JVal) → JVal
  | arr : List JVal → JVal
  | other : JVal

/-- Lookup in a JSON object, modelling the `v, ok := m[k]` map read. -/
def lookupJ (m : List (String × JVal)) (k : String) : Option JVal :=
  (m.find? (fun p => p.1 == k)).map (·.2)

/-- Go `interface{} == string` comparison of a map-read result against a
string: a missing key (nil interface) or a non-string value compares unequal.
(Go would panic when the dynamic type is uncomparable — a map or slice; the
theorems below only ever place strings in the compared position.) -/
def jeqStrOpt (v : Option JVal) (s : String) : Bool :=
  match v with
  | some (.str t) => t == s
  | _ => false

/-- `bcode.Bcode`: HTTP code, business code, message. -/
structure Bcode where
  httpCode : Nat
  businessCode : Nat
  message : String
deriving DecidableEq, Repr

/-- `NewBcode(400, 12000, "storage trait is not exists")`. -/
def ErrStorageTraitNotExists : Bcode := ⟨400, 12000, "storage trait is not exists"⟩

/-- `NewBcode(400, 12001, "storage trait data is not exists")`. -/
def ErrStorageDataNotExists : Bcode := ⟨400, 12001, "storage trait data is not exists"⟩

/-- `NewBcode(400, 12002, "storage trait mount path is not exists")`. -/
def ErrStorageMountPathNotExists : Bcode := ⟨400, 12002, "storage trait mount path is not exists"⟩

/-- `NewBcode(400, 12003, "storage trait type is not exists")`. -/
def ErrStorageTraitTypeNotExists : Bcode := ⟨400, 12003, "storage trait type is not exists"⟩

/-- Modelled from the spec: `bcode.ErrStorageDataType` is referenced by the
gjson-based usecase but defined outside the provided sources; only its
distinctness from the other bcodes matters. -/
def ErrStorageDataType : Bcode := ⟨400, 12007, "storage trait data type err"⟩

/-- Modelled from the spec: `bcode.ErrInvalidProperties` is referenced but
defined outside the provided sources; only its distinctness matters. -/
def ErrInvalidProperties : Bcode := ⟨400, 12008, "invalid properties"⟩

/-- `apisCmb.KeyStorage`. -/
def keyStorage : String := "storage"

/-- `apisCmb.KeyConfigMap`. -/
def keyConfigMap : String := "configMap"

/-- `apisCmb.KeyMountPath`. -/
def keyMountPath : String := "mountPath"

/-- `apisCmb.KeyData`. -/
def keyData : String := "data"

/-- `model.ApplicationTrait`: type tag and property document. The `Properties`
field is a (non-nil) pointer to the document; timestamps are dropped. -/
structure ApplicationTrait where
  ttype : String
  properties : List (String × JVal)
  traitAlias : String
  description : String

/-- `model.ApplicationComponent`: the fields the storage usecase reads. -/
structure ApplicationComponent where
  name : String
  traits : List ApplicationTrait

/-- `apisCmb.StorageItemOptions` (field `Type` renamed `itype`). -/
structure StorageItemOptions where
  itype : String
  name : String
  mountPath : String
  dataKey : String

/-- `apisCmb.StorageItemResponse`. -/
structure StorageItemResponse where
  appPrimaryKey : String
  componentName : String
  mountPath : String
  key : String
  itype : String
  value : String
deriving DecidableEq, Repr

/-- The first trait with `Type == "storage"`: the detail/update/delete loops
return from inside the loop body on the first storage trait. -/
def findStorageTrait? (ts : List ApplicationTrait) : Option ApplicationTrait :=
  ts.find? (fun t => t.ttype == keyStorage)

/-- Result of a detail read: a response, a typed bcode error, or a recovered
panic (the Go function then returns `(nil, nil)`). -/
inductive DetailOutcome where
  | ok : StorageItemResponse → DetailOutcome
  | err : Bcode → DetailOutcome
  | panicked : DetailOutcome
deriving DecidableEq, Repr

/-- The item-scanning loop of the map-traversal `DetailComponentStorageItem`
(src/unnamed/part_000): walks every item, errors when an item lacks the
mount-path key, remembers the data map of the (last) item whose mount path
matches, panics on failed type assertions. -/
inductive DetailScanA where
  | found : Option (List (String × JVal)) → DetailScanA
  | errOut : Bcode → DetailScanA
  | panicOut : DetailScanA

def detailScanA (mountPath : String) :
    List JVal → Option (List (String × JVal)) → DetailScanA
  | [], acc => .found acc
  | item :: rest, acc =>
    match item with
    | .obj m =>
      match lookupJ m keyMountPath with
      | none => .errOut ErrStorageMountPathNotExists
      | some mp =>
        if jeqStrOpt (some mp) mountPath then
          match lookupJ m keyData with
          | none => .errOut ErrStorageDataNotExists
          | some (.obj dm) => detailScanA mountPath rest (some dm)
          | some _ => .panicOut
        else detailScanA mountPath rest acc
    | _ => .panicOut

/-- The map-traversal `DetailComponentStorageItem` (src/unnamed/part_000):
distinguishes trait-absent, type-absent, mount-path-absent and data-key-
absent with four different bcodes. `appKey` is `app.PrimaryKey()`; `comp` is
the component as fetched from the datastore. -/
def detailComponentStorageItemA (appKey : String) (comp : ApplicationComponent)
    (opts : StorageItemOptions) : DetailOutcome :=
  match findStorageTrait? comp.traits with
  | none => .err ErrStorageTraitNotExists
  | some tr =>
    match lookupJ tr.properties opts.itype with
    | none => .err ErrStorageTraitTypeNotExists
    | some (.arr items) =>
      match detailScanA opts.mountPath items none with
      | .errOut b => .err b
      | .panicOut => .panicked
      | .found none => .err ErrStorageMountPathNotExists
      | .found (some dm) =>
        match lookupJ dm opts.dataKey with
        | some (.str v) =>
          .ok { appPrimaryKey := appKey, componentName := comp.name,
                mountPath := opts.mountPath, key := opts.dataKey,
                itype := opts.itype, value := v }
        | some _ => .panicked
        | none => .err ErrStorageDataNotExists
    | some _ => .panicked

/-- One step of a gjson path: `.k` on a value yields the member `k` of an
object and nothing otherwise. -/
def jget (v : JVal) (k : String) : Option JVal :=
  match v with
  | .obj m => lookupJ m k
  | _ => none

/-- The gjson query `configMap.#(mountPath=="MP").data.KEY` over the marshaled
property document: the first element of the `configMap` array whose
`mountPath` member is the string `MP`, then its `data` member, then the key.
(The Go code escapes literal dots in `MP` and `KEY` so they are not treated
as path separators; the direct lookup here is that escaped semantics.) -/
def gjsonQueryCM (props : List (String × JVal)) (mountPath dataKey : String) :
    Option JVal :=
  match lookupJ props keyConfigMap with
  | some (.arr items) =>
    match items.find? (fun it =>
        match it with
        | .obj m => jeqStrOpt (lookupJ m keyMountPath) mountPath
        | _ => false) with
    | some it => (jget it keyData).bind (fun d => jget d dataKey)
    | none => none
  | _ => none

/-- The gjson-based `DetailComponentStorageItem`
(src/unnamed/part_001 lines 273-315, identical in part_002): queries
`configMap.#(mountPath==...).data.<key>` on the first storage trait; a failed
query — whether the type, the mount path or the key is the missing level —
uniformly yields `ErrStorageDataNotExists`; a non-string result yields
`ErrStorageDataType`. The requested storage type is never consulted by the
query (the path hardcodes `configMap`). -/
def detailComponentStorageItemG (appKey : String) (comp : ApplicationComponent)
    (opts : StorageItemOptions) : Except Bcode StorageItemResponse :=
  match findStorageTrait? comp.traits with
  | none => .error ErrStorageTraitNotExists
  | some tr =>
    match gjsonQueryCM tr.properties opts.mountPath opts.dataKey with
    | none => .error ErrStorageDataNotExists
    | some (.str s) =>
      .ok { appPrimaryKey := appKey, componentName := comp.name,
            mountPath := opts.mountPath, key := opts.dataKey,
            itype := opts.itype, value := s }
    | some _ => .error ErrStorageDataType

/-! ## `mergeStorageItem` / `CreateComponentStorageItem`
(identical in src/unnamed/part_000, part_001 and part_002) -/

def wfStatus0 : WorkflowStatus :=
  { steps := ["deploy"], contextBackend := some "cb-1", message := "executing",
    suspend := false, terminated := false, finished := false }

def appStatus0 : AppStatus :=
  { phase := applicationRunning, observedGeneration := 1, conditions := [],
    appliedResources := ["res-a"], services := [⟨"svc", true, []⟩],
    workflow := some wfStatus0 }

/-- A sample application: generation 2, observed generation 1, not being
deleted, deletion-guard finalizer present, nil annotations. -/
def app0 : Application :=
  { name := "demo", nspace := "default", generation := 2, resourceVersion := "101",
    deletionTimestamp := none, finalizers := [resourceTrackerFinalizer],
    annotations := none, managedFields := ["mgr-a"], spec := "spec-v2",
    status := appStatus0 }

/-- `app0` with a different generation (a spec edit). -/
def app0gen3 : Application := { app0 with generation := 3 }

/-- `app0` with only the managed-fields metadata changed. -/
def app0mf : Application := { app0 with managedFields := ["mgr-b"] }

/-- `app0` without a workflow sub-status. -/
def appNilWf : Application := { app0 with status := { appStatus0 with workflow := none } }

/-- `appNilWf` with only the resource version changed. -/
def appNilWfRv : Application := { appNilWf with resourceVersion := "102" }

/-- `app0` with changes confined to volatile fields (resource version,
applied resources, workflow message), both sides carrying workflow status. -/
def app0vol : Application :=
  { app0 with
    resourceVersion := "102"
    status := { appStatus0 with
      appliedResources := ["res-b"]
      workflow := some { wfStatus0 with message := "step 2 running" } } }

/-- `app0` marked for deletion. -/
def app0del : Application := { app0 with deletionTimestamp := some 5 }

/-- A benign GC environment: garbage collection finishes with nothing
waiting, and every status write succeeds. -/
def gcEnv0 : GCEnv :=
  { gcCall := .ok (true, []), patchErr := none, disableStatusUpdate := false,
    updateErr := none, unstructuredErr := none }

/-- A tracker listing in which the current tracker still exists. -/
def trackers1 : TrackerList :=
  { rootRT := some "rt-root", currentRT := some "rt-v2", historyRTs := [], cvRT := none }

/-- A finalizer-handling environment: listing succeeds with `trackers1`,
GC and status writes succeed, optimizations off. -/
def hfEnv0 : HFEnv :=
  { listResult := .ok trackers1, gcEnv := gcEnv0, updateErr := none,
    loopReduction := false, inMemoryContext := false }

/-- A sample negative condition. -/
def cond0 : Condition :=
  { ctype := "Parsed", status := false, reason := "ErrorOccurred",
    message := "cannot parse application" }

/-- Options with the ignore-apps-without-controller-requirement flag set. -/
def optsIgnore : ROptions :=
  { disableStatusUpdate := false, ignoreAppNoCtrlReq := true, controllerVersion := "v1.2.3" }

/-- Options with the flag unset. -/
def optsNoIgnore : ROptions :=
  { disableStatusUpdate := false, ignoreAppNoCtrlReq := false, controllerVersion := "v1.2.3" }

/-- `app0` demanding controller version v9.9.9. -/
def app0req : Application :=
  { app0 with annotations := some [(annotationControllerRequirement, "v9.9.9")] }

/-- A storage trait holding one configMap at `/etc/conf` with data key `k1`. -/
def trait8 : ApplicationTrait :=
  { ttype := keyStorage,
    properties := [(keyConfigMap, .arr [.obj [(keyMountPath, .str "/etc/conf"),
      (keyData, .obj [("k1", .str "v1")])]])],
    traitAlias := "", description := "" }

def comp8 : ApplicationComponent := { name := "comp-a", traits := [trait8] }

/-- A read request for a mount path that is not present. -/
def opts8 : StorageItemOptions :=
  { itype := keyConfigMap, name := "", mountPath := "/etc/other", dataKey := "k1" }

theorem updateObservedGeneration_sets (app : Application) :
    (updateObservedGeneration app).status.observedGeneration = app.generation := by
  unfold updateObservedGeneration
  split
  · rfl
  · next h => exact not_ne_iff.mp h

theorem updateObservedGeneration_generation (app : Application) :
    (updateObservedGeneration app).generation = app.generation := by
  unfold updateObservedGeneration; split <;> rfl

theorem stepStatusKey_phase_set (app : Application) (phase : String) :
    stepStatusKey (updateObservedGeneration
      { app with status := { app.status with phase := phase } }) =
      app.name ++ "-" ++ app.nspace := by
  unfold updateObservedGeneration stepStatusKey
  split <;> rfl

theorem patchStatus_observedGeneration (patchErr : GoErr) (app : Application)
    (phase : String) :
    (patchStatus patchErr app phase).app.status.observedGeneration = app.generation := by
  unfold patchStatus
  have h := updateObservedGeneration_sets { app with status := { app.status with phase := phase } }
  cases patchErr <;> simpa using h

theorem updateStatus_observedGeneration (dsu : Bool) (updateErr unstructuredErr : GoErr)
    (app : Application) (phase : String) :
    (updateStatus dsu updateErr unstructuredErr app phase).app.status.observedGeneration =
      app.generation := by
  unfold updateStatus
  have h := updateObservedGeneration_sets { app with status := { app.status with phase := phase } }
  cases dsu <;> cases unstructuredErr <;> cases updateErr <;> simpa using h

/-! # Claim theorems -/

/-- C4: for every (old, new) pair of application update notifications where
the generation counter differs, the update event filter returns true (the
notification passes; it is never suppressed). -/
theorem updateFilter_passes_generation_change (old new : Application)
    (h : old.generation ≠ new.generation) : updateFilter old new = true := by
  have hne : old ≠ new := fun he => h (congrArg Application.generation he)
  unfold updateFilter
  rw [if_neg hne]
  exact if_pos h

/-- Witness for C4: the filter passes a concrete pair differing in
generation. -/
theorem updateFilter_passes_generation_change_witness :
    app0.generation ≠ app0gen3.generation ∧ updateFilter app0 app0gen3 = true :=
  ⟨by decide, updateFilter_passes_generation_change app0 app0gen3 (by decide)⟩

/-- C7: when the Workflow Driver returns Executing, the pass requeues after
exactly the driver-supplied backoff duration (whatever the lightweight GC
returned), not the default re-sync interval. -/
theorem workflowExecutingCase_requeues_backoff (env : GCEnv) (app : Application)
    (backoff : Nat) (h : backoff ≠ 0) :
    (workflowExecutingCase env app backoff).1 = ⟨backoff⟩ := by
  unfold workflowExecutingCase reconcileResult.ret reconcileResult.requeue mkResult
  simp [h]

/-- Witness for C7: two successive Executing passes with driver backoffs 5s
and 10s requeue after exactly 5000 ms and 10000 ms. -/
theorem workflowExecutingCase_requeues_backoff_witness :
    (workflowExecutingCase gcEnv0 app0 5000).1 = ⟨5000⟩ ∧
    (workflowExecutingCase gcEnv0 app0 10000).1 = ⟨10000⟩ :=
  ⟨workflowExecutingCase_requeues_backoff gcEnv0 app0 5000 (by decide),
   workflowExecutingCase_requeues_backoff gcEnv0 app0 10000 (by decide)⟩

/-- C2 counterexample: a pass that ends with a negative condition *does*
advance observed-generation — `endWithNegativeCondition` routes through
`patchStatus`, which calls `updateObservedGeneration`. On an application
with generation 2 and observed generation 1, the negative-condition exit
leaves observed generation 2. -/
theorem endWithNegativeCondition_advances_observedGeneration :
    app0.generation = 2 ∧ app0.status.observedGeneration = 1 ∧
    (endWithNegativeCondition none app0 cond0 applicationRendering).app.status.observedGeneration
      = 2 := by
  refine ⟨rfl, rfl, ?_⟩
  rfl

/-- C2 amended: every status write the controller performs — `patchStatus`,
`updateStatus`, and in particular the negative-condition exit — sets
observed-generation to the current generation, so observed-generation equals
generation after any completed status write, including failed passes. -/
theorem status_writes_set_observedGeneration (patchErr updateErr unstructuredErr : GoErr)
    (dsu : Bool) (app : Application) (c : Condition) (phase : String) :
    (patchStatus patchErr app phase).app.status.observedGeneration = app.generation ∧
    (updateStatus dsu updateErr unstructuredErr app phase).app.status.observedGeneration
      = app.generation ∧
    (endWithNegativeCondition patchErr app c phase).app.status.observedGeneration
      = app.generation := by
  refine ⟨patchStatus_observedGeneration .., updateStatus_observedGeneration .., ?_⟩
  unfold endWithNegativeCondition
  have h := patchStatus_observedGeneration patchErr (setConditions app c) phase
  have hg : (setConditions app c).generation = app.generation := rfl
  cases hp : (patchStatus patchErr (setConditions app c) phase).err <;>
    simp_all [setConditions]

/-- C5 counterexample: on the direct status-update path
(`disableStatusUpdate == false`, the default), a failed `Status().Update` is
returned as-is and the workflow step-status cache is *not* invalidated. -/
theorem updateStatus_direct_path_no_invalidation :
    (updateStatus false (some "update failed") none app0 applicationRunning).err
      = some "update failed" ∧
    (updateStatus false (some "update failed") none app0 applicationRunning).cacheStore
      = none := ⟨rfl, rfl⟩

/-- C5 amended: a failed `patchStatus` stores the re-run sentinel -1 under
the object's name-namespace key before propagating the error, and so does
the unstructured-update path of `updateStatus` (taken when
`disableStatusUpdate` is true); the direct update path propagates the error
without invalidating the cache. -/
theorem status_write_failure_invalidation (e : String) (unstructuredErr : GoErr)
    (app : Application) (phase : String) :
    ((patchStatus (some e) app phase).cacheStore
        = some (app.name ++ "-" ++ app.nspace, -1) ∧
      (patchStatus (some e) app phase).err = some e) ∧
    ((updateStatus true (some e) none app phase).cacheStore
        = some (app.name ++ "-" ++ app.nspace, -1) ∧
      (updateStatus true (some e) none app phase).err = some e) ∧
    ((updateStatus false (some e) unstructuredErr app phase).cacheStore = none ∧
      (updateStatus false (some e) unstructuredErr app phase).err = some e) := by
  have hk := stepStatusKey_phase_set app phase
  refine ⟨⟨?_, rfl⟩, ⟨?_, rfl⟩, ?_, rfl⟩
  · unfold patchStatus
    simp [hk]
  · unfold updateStatus
    simp [hk]
  · unfold updateStatus
    simp

/-- C6 counterexample: an application that does *not* demand a specific
controller version is nevertheless skipped when the reconciler is configured
with `ignoreAppNoCtrlReq`: the claim's "an object that does not demand a
specific controller version is not skipped" fails on that configuration. -/
theorem no_requirement_still_skipped :
    app0.annotations = none ∧
    matchControllerRequirement optsIgnore app0 = false ∧
    (reconcileEarlyPhase optsIgnore (.ok app0)).proceeded = false := ⟨rfl, rfl, rfl⟩

/-- C6 amended: a fetched application whose controller-version annotation is
present and differs from this controller's version is skipped — success, no
error, no status write; an application without a controller-version
requirement is not skipped provided the reconciler is not configured to
ignore applications without a controller requirement. -/
theorem controller_version_guard (r : ROptions) (app : Application) :
    (∀ anns v, app.annotations = some anns →
      lookupStr anns annotationControllerRequirement = some v →
      v ≠ r.controllerVersion →
      (reconcileEarlyPhase r (.ok app)).proceeded = false ∧
      (reconcileEarlyPhase r (.ok app)).err = none ∧
      (reconcileEarlyPhase r (.ok app)).statusWrites = 0 ∧
      (reconcileEarlyPhase r (.ok app)).result = ⟨0⟩) ∧
    ((∀ anns, app.annotations = some anns →
        lookupStr anns annotationControllerRequirement = none) →
      r.ignoreAppNoCtrlReq = false →
      (reconcileEarlyPhase r (.ok app)).proceeded = true) := by
  constructor
  · intro anns v hanns hlook hne
    have hmatch : matchControllerRequirement r app = false := by
      simp [matchControllerRequirement, hanns, hlook, beq_eq_false_iff_ne, hne]
    simp [reconcileEarlyPhase, hmatch]
  · intro hnoreq hflag
    have hmatch : matchControllerRequirement r app = true := by
      cases hanns : app.annotations with
      | none => simp [matchControllerRequirement, hanns, hflag]
      | some anns => simp [matchControllerRequirement, hanns, hnoreq anns hanns, hflag]
    simp [reconcileEarlyPhase, hmatch]

/-- Witness for C6 amended: a concrete app demanding v9.9.9 is skipped by a
v1.2.3 controller with no error and no status write, and `app0` (no
requirement) proceeds when `ignoreAppNoCtrlReq` is off. -/
theorem controller_version_guard_witness :
    ((reconcileEarlyPhase optsNoIgnore (.ok app0req)).proceeded = false ∧
      (reconcileEarlyPhase optsNoIgnore (.ok app0req)).err = none ∧
      (reconcileEarlyPhase optsNoIgnore (.ok app0req)).statusWrites = 0 ∧
      (reconcileEarlyPhase optsNoIgnore (.ok app0req)).result = ⟨0⟩) ∧
    (reconcileEarlyPhase optsNoIgnore (.ok app0)).proceeded = true :=
  ⟨(controller_version_guard optsNoIgnore app0req).1
      [(annotationControllerRequirement, "v9.9.9")] "v9.9.9" rfl rfl (by decide),
   (controller_version_guard optsNoIgnore app0).2
      (fun _ h => by cases h) rfl⟩

theorem normalizeWorkflowFields_generation (old x : Application) :
    (normalizeWorkflowFields old x).generation = x.generation := by
  unfold normalizeWorkflowFields
  split <;> rfl

/-- A pair that the filter's *own* normalization (`normalizeUpd`: managed
fields always; workflow step list, context backend, message,
applied-resource and service lists and resource version only when both
objects carry a workflow status) maps back to old is suppressed, unless the
pair is fully identical. -/
theorem updateFilter_suppressed_of_filter_normalized (old new : Application)
    (hne : old ≠ new) (hnorm : normalizeUpd old new = old) :
    updateFilter old new = false := by
  unfold normalizeUpd at hnorm
  have hgen : ¬ (old.generation ≠
      ({ new with managedFields := old.managedFields } : Application).generation) := by
    have h1 := normalizeWorkflowFields_generation old
      { new with managedFields := old.managedFields }
    rw [hnorm] at h1
    exact not_not_intro h1
  unfold updateFilter
  rw [if_neg hne]
  simp only [if_neg hgen, hnorm]
  simp

/-- When both objects carry a workflow status, the filter's conditional
normalization coincides with the unconditional volatile-field normalization
of the specification. -/
theorem normalizeUpd_eq_specNormalizeVolatile (old new : Application)
    (how : old.status.workflow.isSome = true)
    (hnw : new.status.workflow.isSome = true) :
    normalizeUpd old new = specNormalizeVolatile old new := by
  obtain ⟨onm, ons, og, orv, odt, ofin, oann, omf, osp, ost⟩ := old
  obtain ⟨oph, oog, ocond, oar, osv, owf⟩ := ost
  obtain ⟨nnm, nns, ng, nrv, ndt, nfin, nann, nmf, nsp, nst⟩ := new
  obtain ⟨nph, nog, ncond, nar, nsv, nwf⟩ := nst
  cases owf with
  | none => simp at how
  | some ow =>
    cases nwf with
    | none => simp at hnw
    | some nw => rfl

/-- C3 counterexample: two kinds of update pairs that are deep-equal after
normalizing the volatile fields are *not* suppressed. A fully identical pair
is passed as a resync; and a pair with nil workflow statuses differing only
in resource version is passed, because the filter copies resource version,
applied resources and services only when both objects carry a workflow
status. -/
theorem updateFilter_passes_spec_normalized_pairs :
    (specVolatileEq app0 app0 = true ∧ updateFilter app0 app0 = true) ∧
    (appNilWf ≠ appNilWfRv ∧ specVolatileEq appNilWf appNilWfRv = true ∧
      updateFilter appNilWf appNilWfRv = true) := by
  exact ⟨⟨by decide, by decide⟩, by decide, by decide, by decide⟩

/-- C3 amended: a non-identical update pair that is deep-equal after
normalizing the volatile fields (field-ownership metadata, workflow step
list, context backend, workflow message, applied-resource and service lists,
resource version — the file's `specNormalizeVolatile`) is suppressed,
provided both objects carry a workflow sub-status; the filter normalizes the
non-managed-fields volatile fields only in that case (the counterexample
shows a nil-workflow pair passing), and a fully identical pair always passes
as a resync. -/
theorem updateFilter_suppresses_volatile_normalized (old new : Application)
    (hne : old ≠ new)
    (how : old.status.workflow.isSome = true)
    (hnw : new.status.workflow.isSome = true)
    (hnorm : specNormalizeVolatile old new = old) :
    updateFilter old new = false :=
  updateFilter_suppressed_of_filter_normalized old new hne
    ((normalizeUpd_eq_specNormalizeVolatile old new how hnw).trans hnorm)

/-- Witness for C3 amended: a pair carrying workflow status on both sides
and differing only in resource version, applied resources and workflow
message is normalized back to old and suppressed. -/
theorem updateFilter_suppresses_volatile_normalized_witness :
    app0 ≠ app0vol ∧ specNormalizeVolatile app0 app0vol = app0 ∧
    updateFilter app0 app0vol = false :=
  ⟨by decide, by decide,
   updateFilter_suppresses_volatile_normalized app0 app0vol
     (by decide) (by decide) (by decide) (by decide)⟩

/-- C10: the tracker-to-application mapping enqueues a reconcile request only
when the tracker carries both a non-empty app-name and a non-empty
app-namespace label; a tracker with a nil label map or with either label
empty/missing never enqueues; and with the delete-only-trigger optimization
enabled, a tracker without a deletion timestamp never enqueues. -/
theorem handleResourceTracker_enqueue_guard (b : Bool) (rt : ResourceTracker) :
    (∀ req, handleResourceTracker b rt = some req →
      ∃ ls, rt.labels = some ls ∧
        goIndex ls labelAppName ≠ "" ∧ goIndex ls labelAppNamespace ≠ "") ∧
    (∀ ls, rt.labels = some ls →
      (goIndex ls labelAppName = "" ∨ goIndex ls labelAppNamespace = "") →
      handleResourceTracker b rt = none) ∧
    (rt.labels = none → handleResourceTracker b rt = none) ∧
    (b = true → rt.deletionTimestamp = none → handleResourceTracker b rt = none) := by
  refine ⟨?_, ?_, ?_, ?_⟩
  · intro req hreq
    unfold handleResourceTracker at hreq
    split at hreq
    · cases hreq
    · cases hls : rt.labels with
      | none => rw [hls] at hreq; cases hreq
      | some ls =>
        rw [hls] at hreq
        simp only at hreq
        split at hreq
        · next hcond =>
          simp only [Bool.and_eq_true, ne_eq, decide_eq_true_eq] at hcond
          exact ⟨ls, rfl, hcond.2, hcond.1⟩
        · cases hreq
  · intro ls hls hempty
    unfold handleResourceTracker
    split
    · rfl
    · rw [hls]
      simp only
      rw [if_neg]
      simp only [Bool.and_eq_true, ne_eq, decide_eq_true_eq, not_and]
      intro hns hn
      rcases hempty with h | h
      · exact hn h
      · exact hns h
  · intro hls
    unfold handleResourceTracker
    split
    · rfl
    · rw [hls]
  · intro hb hdel
    unfold handleResourceTracker
    rw [if_pos]
    rw [hb, hdel]
    simp

/-- Witness for C10: a tracker bearing both labels and a deletion timestamp
enqueues the request named by its labels; dropping the name label suppresses
the enqueue; without a deletion timestamp the delete-only trigger drops the
event. -/
theorem handleResourceTracker_enqueue_guard_witness :
    handleResourceTracker true
      ⟨some [(labelAppName, "demo"), (labelAppNamespace, "default")], some 7⟩
      = some ⟨"demo", "default"⟩ ∧
    handleResourceTracker true
      ⟨some [(labelAppNamespace, "default")], some 7⟩ = none ∧
    handleResourceTracker true
      ⟨some [(labelAppName, "demo"), (labelAppNamespace, "default")], none⟩ = none := by
  refine ⟨by decide, ?_, ?_⟩
  · exact (handleResourceTracker_enqueue_guard true
      ⟨some [(labelAppNamespace, "default")], some 7⟩).2.1
      [(labelAppNamespace, "default")] rfl (Or.inl (by decide))
  · exact (handleResourceTracker_enqueue_guard true
      ⟨some [(labelAppName, "demo"), (labelAppNamespace, "default")], none⟩).2.2.2
      rfl rfl

theorem detailScanA_no_match (mp : String) (items : List JVal)
    (acc : Option (List (String × JVal)))
    (h : ∀ it ∈ items, ∃ mi v, it = JVal.obj mi ∧
      lookupJ mi keyMountPath = some v ∧ jeqStrOpt (some v) mp = false) :
    detailScanA mp items acc = .found acc := by
  induction items generalizing acc with
  | nil => rfl
  | cons it rest ih =>
    obtain ⟨mi, v, rfl, hlk, hne⟩ := h it (List.mem_cons_self it rest)
    unfold detailScanA
    simp only [hlk, hne, Bool.false_eq_true, reduceIte]
    exact ih acc (fun x hx => h x (List.mem_cons_of_mem _ hx))

theorem detailScanA_match (mp : String) (pre post : List JVal)
    (m dm : List (String × JVal)) (acc : Option (List (String × JVal)))
    (hpre : ∀ it ∈ pre, ∃ mi v, it = JVal.obj mi ∧
      lookupJ mi keyMountPath = some v ∧ jeqStrOpt (some v) mp = false)
    (hm : lookupJ m keyMountPath = some (.str mp))
    (hdata : lookupJ m keyData = some (.obj dm)) :
    detailScanA mp (pre ++ JVal.obj m :: post) acc = detailScanA mp post (some dm) := by
  induction pre generalizing acc with
  | nil =>
    rw [List.nil_append]
    simp only [detailScanA, hm, hdata, jeqStrOpt, beq_self_eq_true, reduceIte]
  | cons it rest ih =>
    obtain ⟨mi, v, rfl, hlk, hne⟩ := hpre it (List.mem_cons_self it rest)
    rw [List.cons_append]
    simp only [detailScanA, hlk, hne, Bool.false_eq_true, reduceIte]
    exact ih acc (fun x hx => hpre x (List.mem_cons_of_mem _ hx))

/-- C8 counterexample: on a read request whose *mount path* is the missing
level, the gjson-based detail implementation returns the data-absent error
(`storage trait data is not exists`) instead of an error identifying the
mount path — the map-traversal implementation on the same input returns
`storage trait mount path is not exists`, a different bcode. -/
theorem detail_gjson_collapses_mountpath :
    detailComponentStorageItemG "app-a" comp8 opts8 = .error ErrStorageDataNotExists ∧
    detailComponentStorageItemA "app-a" comp8 opts8 = .err ErrStorageMountPathNotExists ∧
    ErrStorageDataNotExists ≠ ErrStorageMountPathNotExists := by
  refine ⟨rfl, rfl, by decide⟩

/-- C8 amended: the map-traversal detail implementation (src/unnamed/part_000)
returns a distinct typed not-found error for each missing level — storage
trait absent, storage type absent, mount path absent, data key absent — and
those four bcodes are pairwise distinct; the gjson-based implementation
(src/unnamed/part_001, part_002) distinguishes only the trait-absent level,
reporting a missing storage type (it never consults the requested type and
hardcodes configMap) and, per the counterexample, a missing mount path as
the data-absent error. -/
theorem detail_typed_not_found_errors (appKey : String)
    (comp : ApplicationComponent) (opts : StorageItemOptions) :
    (findStorageTrait? comp.traits = none →
      detailComponentStorageItemA appKey comp opts = .err ErrStorageTraitNotExists ∧
      detailComponentStorageItemG appKey comp opts = .error ErrStorageTraitNotExists) ∧
    (∀ tr, findStorageTrait? comp.traits = some tr →
      lookupJ tr.properties opts.itype = none →
      detailComponentStorageItemA appKey comp opts = .err ErrStorageTraitTypeNotExists) ∧
    (∀ tr items, findStorageTrait? comp.traits = some tr →
      lookupJ tr.properties opts.itype = some (.arr items) →
      (∀ it ∈ items, ∃ mi v, it = JVal.obj mi ∧
        lookupJ mi keyMountPath = some v ∧ jeqStrOpt (some v) opts.mountPath = false) →
      detailComponentStorageItemA appKey comp opts = .err ErrStorageMountPathNotExists) ∧
    (∀ tr pre post m dm, findStorageTrait? comp.traits = some tr →
      lookupJ tr.properties opts.itype = some (.arr (pre ++ JVal.obj m :: post)) →
      (∀ it ∈ pre, ∃ mi v, it = JVal.obj mi ∧
        lookupJ mi keyMountPath = some v ∧ jeqStrOpt (some v) opts.mountPath = false) →
      (∀ it ∈ post, ∃ mi v, it = JVal.obj mi ∧
        lookupJ mi keyMountPath = some v ∧ jeqStrOpt (some v) opts.mountPath = false) →
      lookupJ m keyMountPath = some (.str opts.mountPath) →
      lookupJ m keyData = some (.obj dm) →
      lookupJ dm opts.dataKey = none →
      detailComponentStorageItemA appKey comp opts = .err ErrStorageDataNotExists) ∧
    (∀ tr, findStorageTrait? comp.traits = some tr →
      lookupJ tr.properties keyConfigMap = none →
      detailComponentStorageItemG appKey comp opts = .error ErrStorageDataNotExists) ∧
    (ErrStorageTraitNotExists ≠ ErrStorageTraitTypeNotExists ∧
      ErrStorageTraitNotExists ≠ ErrStorageMountPathNotExists ∧
      ErrStorageTraitNotExists ≠ ErrStorageDataNotExists ∧
      ErrStorageTraitTypeNotExists ≠ ErrStorageMountPathNotExists ∧
      ErrStorageTraitTypeNotExists ≠ ErrStorageDataNotExists ∧
      ErrStorageMountPathNotExists ≠ ErrStorageDataNotExists) := by
  refine ⟨?_, ?_, ?_, ?_, ?_, by decide⟩
  · intro hnone
    constructor
    · unfold detailComponentStorageItemA
      rw [hnone]
    · unfold detailComponentStorageItemG
      rw [hnone]
  · intro tr htr hty
    unfold detailComponentStorageItemA
    rw [htr]
    simp only [hty]
  · intro tr items htr hty hitems
    unfold detailComponentStorageItemA
    rw [htr]
    simp only [hty, detailScanA_no_match opts.mountPath items none hitems]
  · intro tr pre post m dm htr hty hpre hpost hm hdata hkey
    unfold detailComponentStorageItemA
    rw [htr]
    simp only [hty,
      detailScanA_match opts.mountPath pre post m dm none hpre hm hdata,
      detailScanA_no_match opts.mountPath post (some dm) hpost, hkey]
  · intro tr htr hcm
    unfold detailComponentStorageItemG gjsonQueryCM
    rw [htr]
    simp only [hcm]

/-- Witness for C8 amended: on `comp8`, asking for a `secret` storage type
yields the type-absent error, and asking for a missing data key at the
present mount path yields the data-absent error. -/
theorem detail_typed_not_found_errors_witness :
    detailComponentStorageItemA "app-a" comp8
      ⟨"secret", "", "/etc/conf", "k1"⟩ = .err ErrStorageTraitTypeNotExists ∧
    detailComponentStorageItemA "app-a" comp8
      ⟨keyConfigMap, "", "/etc/conf", "k9"⟩ = .err ErrStorageDataNotExists :=
  ⟨(detail_typed_not_found_errors "app-a" comp8 ⟨"secret", "", "/etc/conf", "k1"⟩).2.1
      trait8 rfl rfl,
   (detail_typed_not_found_errors "app-a" comp8 ⟨keyConfigMap, "", "/etc/conf", "k9"⟩).2.2.2.1
      trait8 [] []
      [(keyMountPath, .str "/etc/conf"), (keyData, .obj [("k1", .str "v1")])]
      [("k1", .str "v1")] rfl rfl
      (fun it hit => absurd hit (by simp)) (fun it hit => absurd hit (by simp))
      rfl rfl rfl⟩

theorem setConditions_finalizers (app : Application) (c : Condition) :
    (setConditions app c).finalizers = app.finalizers := rfl

theorem updateObservedGeneration_finalizers (app : Application) :
    (updateObservedGeneration app).finalizers = app.finalizers := by
  unfold updateObservedGeneration; split <;> rfl

theorem patchStatus_finalizers (pe : GoErr) (app : Application) (ph : String) :
    (patchStatus pe app ph).app.finalizers = app.finalizers := by
  unfold patchStatus
  cases pe <;> simp [updateObservedGeneration_finalizers]

theorem updateStatus_finalizers (dsu : Bool) (ue un : GoErr) (app : Application)
    (ph : String) :
    (updateStatus dsu ue un app ph).app.finalizers = app.finalizers := by
  unfold updateStatus
  cases dsu <;> cases un <;> cases ue <;> simp [updateObservedGeneration_finalizers]

theorem endWithNegativeCondition_finalizers (pe : GoErr) (app : Application)
    (c : Condition) (ph : String) :
    (endWithNegativeCondition pe app c ph).app.finalizers = app.finalizers := by
  unfold endWithNegativeCondition
  have h1 := patchStatus_finalizers pe (setConditions app c) ph
  rw [setConditions_finalizers] at h1
  cases hpo : (patchStatus pe (setConditions app c) ph).err <;>
    simp only [hpo] <;>
    simpa [reconcileResult.ret, mkResult, withMessageErr] using h1

theorem gcResourceTrackers_finalizers (env : GCEnv) (app : Application)
    (ph : String) (b : Bool) :
    (gcResourceTrackers env app ph b).app.finalizers = app.finalizers := by
  unfold gcResourceTrackers
  cases env.gcCall with
  | error e => exact endWithNegativeCondition_finalizers env.patchErr app _ ph
  | ok fw =>
    obtain ⟨finished, waiting⟩ := fw
    cases finished with
    | false =>
      have h1 := patchStatus_finalizers env.patchErr
        (setConditions app (if waiting.length > 0 then
          { deletingCondition with message := waitingMessage waiting }
         else deletingCondition)) ph
      rw [setConditions_finalizers] at h1
      simpa using h1
    | true =>
      by_cases hph : ph = applicationRendering
      · simp [hph, updateStatus_finalizers]
      · simp [hph, patchStatus_finalizers]

theorem gcResourceTrackers_ok (env : GCEnv) (app : Application) (phase : String)
    (b : Bool) (fw : Bool × List String)
    (hgc : env.gcCall = .ok fw) (hp : env.patchErr = none)
    (hph : phase ≠ applicationRendering) :
    (gcResourceTrackers env app phase b).err = none ∧
    0 < (gcResourceTrackers env app phase b).result.requeueAfter := by
  unfold gcResourceTrackers
  rw [hgc]
  obtain ⟨finished, waiting⟩ := fw
  cases finished with
  | false =>
    simp [patchStatus, hp, reconcileResult.ret, reconcileResult.requeue, mkResult,
      baseGCBackoffWaitTime]
  | true =>
    simp only [Bool.not_true, Bool.false_eq_true, reduceIte, if_neg hph]
    simp [patchStatus, hp, reconcileResult.ret, mkResult, applicationReSyncPeriod]

theorem shrinks_isEmpty (after t : TrackerList) (h : after.shrinks t)
    (ht : t.isEmpty = true) : after.isEmpty = true := by
  obtain ⟨h1, h2, h3, h4⟩ := h
  unfold TrackerList.isEmpty at ht ⊢
  simp only [Bool.and_eq_true, decide_eq_true_eq] at ht ⊢
  obtain ⟨⟨⟨e1, e2⟩, e3⟩, e4⟩ := ht
  rw [e3] at h3
  have h3e := List.sublist_nil.mp h3
  refine ⟨⟨⟨?_, ?_⟩, h3e⟩, ?_⟩
  · rcases h1 with h | h
    · rw [h, e1]
    · exact h
  · rcases h2 with h | h
    · rw [h, e2]
    · exact h
  · rcases h4 with h | h
    · rw [h, e4]
    · exact h

/-- C1: for an application bearing the deletion-guard finalizer and a
deletion timestamp, the finalizer-handling pass removes the finalizer only
when all four resource trackers (root, current, historical, component-
revision) are absent or empty — the listing is taken before GC, and since GC
only deletes trackers, emptiness then also holds for any post-GC state
`after`; and if any tracker remains after GC (so the pre-GC listing was
non-empty), the finalizer stays present and the pass ends (endReconcile)
with a positive requeue and no error, provided GC and the status write
themselves succeed. -/
theorem handleFinalizers_finalizer_safety (env : HFEnv) (app : Application)
    (t after : TrackerList)
    (hdel : app.deletionTimestamp ≠ none)
    (hfin : finalizerExists app resourceTrackerFinalizer = true)
    (hlist : env.listResult = .ok t)
    (hshrink : after.shrinks t) :
    ((handleFinalizers env app).removedFinalizer = true → after.isEmpty = true) ∧
    (after.isEmpty = false →
      (∃ fw, env.gcEnv.gcCall = Except.ok fw) →
      env.gcEnv.patchErr = none →
      finalizerExists (handleFinalizers env app).app resourceTrackerFinalizer = true ∧
      (handleFinalizers env app).endReconcile = true ∧
      (handleFinalizers env app).err = none ∧
      0 < (handleFinalizers env app).result.requeueAfter) := by
  have hred : handleFinalizers env app =
      (let g := gcResourceTrackers env.gcEnv app applicationDeleting true
       match g.err with
       | some e =>
         { app := g.app, endReconcile := true, result := g.result, err := some e,
           addedFinalizer := false, removedFinalizer := false,
           clearedMemCtx := false, cacheStore := g.cacheStore }
       | none =>
         if t.rootRT = none ∧ t.currentRT = none ∧ t.historyRTs = [] ∧ t.cvRT = none then
           let app1 := removeFinalizer g.app resourceTrackerFinalizer
           let (res, e2) := (mkResult (wrapErr env.updateErr errUpdateApplicationFinalizer)).ret
           { app := app1, endReconcile := true, result := res, err := e2,
             addedFinalizer := false, removedFinalizer := true,
             clearedMemCtx := false, cacheStore := g.cacheStore }
         else
           { app := g.app, endReconcile := true, result := g.result, err := none,
             addedFinalizer := false, removedFinalizer := false,
             clearedMemCtx := env.inMemoryContext, cacheStore := g.cacheStore }) := by
    unfold handleFinalizers
    rw [if_neg hdel, hfin, hlist]
    rfl
  constructor
  · intro hrem
    rw [hred] at hrem
    simp only at hrem
    cases hge : (gcResourceTrackers env.gcEnv app applicationDeleting true).err with
    | some e => rw [hge] at hrem; cases hrem
    | none =>
      rw [hge] at hrem
      simp only at hrem
      by_cases hcond : t.rootRT = none ∧ t.currentRT = none ∧ t.historyRTs = [] ∧ t.cvRT = none
      · refine shrinks_isEmpty after t hshrink ?_
        unfold TrackerList.isEmpty
        simp [hcond.1, hcond.2.1, hcond.2.2.1, hcond.2.2.2]
      · rw [if_neg hcond] at hrem
        cases hrem
  · intro hne hgc hp
    obtain ⟨fw, hgcw⟩ := hgc
    obtain ⟨herr, hpos⟩ := gcResourceTrackers_ok env.gcEnv app applicationDeleting true fw
      hgcw hp (by decide)
    have hcond : ¬ (t.rootRT = none ∧ t.currentRT = none ∧ t.historyRTs = [] ∧ t.cvRT = none) := by
      intro hc
      have hte : t.isEmpty = true := by
        unfold TrackerList.isEmpty
        simp [hc.1, hc.2.1, hc.2.2.1, hc.2.2.2]
      rw [shrinks_isEmpty after t hshrink hte] at hne
      cases hne
    rw [hred]
    simp only [herr, if_neg hcond]
    refine ⟨?_, by trivial, by trivial, hpos⟩
    unfold finalizerExists
    rw [gcResourceTrackers_finalizers]
    exact hfin

/-- Witness for C1: with the current and root trackers still alive, a
deleting `app0del` keeps its finalizer, the pass ends, no error is returned,
and a positive requeue is scheduled. -/
theorem handleFinalizers_finalizer_safety_witness :
    finalizerExists (handleFinalizers hfEnv0 app0del).app resourceTrackerFinalizer = true ∧
    (handleFinalizers hfEnv0 app0del).endReconcile = true ∧
    (handleFinalizers hfEnv0 app0del).err = none ∧
    0 < (handleFinalizers hfEnv0 app0del).result.requeueAfter :=
  (handleFinalizers_finalizer_safety hfEnv0 app0del trackers1 trackers1
      (by decide) (by decide) rfl
      ⟨Or.inl rfl, Or.inl rfl, List.Sublist.refl _, Or.inl rfl⟩).2
    (by decide) ⟨(true, []), rfl⟩ rfl

end KubeVela
